import Mathlib

/-
Verification development for `auto_sofalizer.py` (Honey181/auto_sofalizer).

The Python program is shallowly embedded below.  Filesystem paths are modelled
as lists of components, the filesystem visible to the program as an explicit
list of existing files (plus a list of directories where only dir-ness
matters), and every external subprocess as an oracle entry (`CmdResult`)
scripted per invocation.  Observable effects (subprocess launches, dry-run log
lines, the normalization warning, the gain passed to the volume filter) are
recorded in an event trace.  Decimal numbers scraped from the engine's output
are modelled exactly as rationals; Python floats only ever negate or compare
these values in the claims at issue, and negation is exact on floats, so the
rational model is faithful for the properties proved here.
-/

namespace AutoSofalizer

/-- A filesystem path, as the list of its components. -/
structure FPath where
  parts : List String
deriving DecidableEq, Repr

/-- Path join with a single trailing component (`p / name` in pathlib). -/
def FPath.child (p : FPath) (n : String) : FPath := ⟨p.parts ++ [n]⟩

/-- Final component of a path (`Path.name`). -/
def FPath.name (p : FPath) : String := (p.parts.getLast?).getD ""

/-- Whether `p` is an immediate child of directory `dir`. -/
def FPath.isChildOf (p dir : FPath) : Bool :=
  p.parts.length == dir.parts.length + 1 && p.parts.dropLast == dir.parts

/-- Render a path as text (used only inside error messages). -/
def FPath.render (p : FPath) : String := String.intercalate "/" p.parts

/-- Last index of a character in a character list (Python `str.rfind`). -/
def lastIdxOf (c : Char) : List Char → Option Nat
  | [] => none
  | a :: rest =>
    match lastIdxOf c rest with
    | some i => some (i + 1)
    | none => if a == c then some 0 else none

/-- Model of `pathlib.PurePath.stem` applied to a file name: everything before
the last dot, provided that dot is neither the first nor the last character. -/
def stemOf (name : String) : String :=
  match lastIdxOf '.' name.toList with
  | some i => if 0 < i ∧ i + 1 < name.length then ⟨name.toList.take i⟩ else name
  | none => name

/-- Model of `input_file.suffix[1:]` (line 237): the extension after the last
dot, without the dot; empty when the name has no proper suffix. -/
def extOf (name : String) : String :=
  match lastIdxOf '.' name.toList with
  | some i => if 0 < i ∧ i + 1 < name.length then ⟨name.toList.drop (i + 1)⟩ else ""
  | none => ""

/-- ASCII whitespace as matched by the regex class `\s` (the engine's output
is ASCII; Unicode whitespace is not modelled). -/
def isPySpace (c : Char) : Bool :=
  c == ' ' || c == '\t' || c == '\n' || c == '\r' || c == '\x0b' || c == '\x0c'

/-- Numeric value of a digit string. -/
def digitsToNat (cs : List Char) : Nat :=
  cs.foldl (fun acc c => acc * 10 + (c.toNat - '0'.toNat)) 0

/-- Value of the captured group `-?\d+\.?\d*`: integer digits `ds`, fractional
digits `fs`, optional leading minus. -/
def numValue (neg : Bool) (ds fs : List Char) : Rat :=
  let mag : Rat := (digitsToNat ds : Rat) + (digitsToNat fs : Rat) / ((10 : Rat) ^ fs.length)
  if neg then -mag else mag

/-- Attempt to match `\s*(-?\d+\.?\d*)\s*dB` at the start of `cs` (the text
right after a literal `max_volume:` occurrence).  For this pattern greedy
matching without backtracking coincides with Python regex semantics: giving
back a digit, the dot, or a whitespace character always leaves a remainder
that cannot start `\s*dB`. -/
def afterKey (cs : List Char) : Option Rat :=
  let cs := cs.dropWhile isPySpace
  let (neg, cs) :=
    match cs with
    | '-' :: rest => (true, rest)
    | _ => (false, cs)
  let (ds, cs) := cs.span Char.isDigit
  if ds.isEmpty then none
  else
    let (fracs, cs) :=
      match cs with
      | '.' :: rest => rest.span Char.isDigit
      | _ => ([], cs)
    let cs := cs.dropWhile isPySpace
    match cs with
    | 'd' :: 'B' :: _ => some (numValue neg ds fracs)
    | _ => none

/-- Drop a literal from the front of `cs`, or fail. -/
def dropLit : List Char → List Char → Option (List Char)
  | [], cs => some cs
  | _ :: _, [] => none
  | l :: ls, c :: cs => if l == c then dropLit ls cs else none

/-- Model of `re.search(r"max_volume:\s*(-?\d+\.?\d*)\s*dB", line)` followed by
`float(match.group(1))` (lines 172-174): leftmost occurrence wins within a
single line. -/
def searchVol : List Char → Option Rat
  | [] => none
  | c :: rest =>
    match dropLit "max_volume:".toList (c :: rest) with
    | some tail =>
      match afterKey tail with
      | some v => some v
      | none => searchVol rest
    | none => searchVol rest

/-- Volume extracted from one output line. -/
def lineVol (line : String) : Option Rat := searchVol line.toList

/-- Model of the scanning loop of `run_command` (lines 166-174): `max_volume`
starts as `None` and is overwritten by every line that matches, so the last
matching line wins. -/
def scanLines (lines : List String) : Option Rat :=
  lines.foldl
    (fun acc line =>
      match lineVol line with
      | some v => some v
      | none => acc)
    none

/-- Model of the gain computation (lines 309-314): the gain (as the rational
value of the `<gain>dB` string passed to the volume filter) and whether the
missing-measurement warning was logged. -/
def computeGain (max_volume : Option Rat) : Rat × Bool :=
  match max_volume with
  | none => (0, true)
  | some v => (-v, false)

/-- Model of `ProcessingConfig` (lines 44-55). -/
structure ProcessingConfig where
  input_folder : FPath
  output_folder : FPath
  extensions : List String
  audio_track : Int
  sofa_file : FPath
  ffmpeg_verbosity : String := "repeat+24"
  keep_temp : Bool := false
  dry_run : Bool := false
  skip_normalize : Bool := false
deriving DecidableEq, Repr

/-- The filesystem as the program observes it: the existing regular files and
the existing directories. -/
structure World where
  files : List FPath
  dirs : List FPath
deriving DecidableEq, Repr

/-- Model of `Path.exists`. -/
def World.pathExists (w : World) (p : FPath) : Bool :=
  w.files.contains p || w.dirs.contains p

/-- Model of `Path.is_dir`. -/
def World.isDirAt (w : World) (p : FPath) : Bool := w.dirs.contains p

/-- Model of `ProcessingConfig.validate` (lines 57-72). -/
def validate (w : World) (cfg : ProcessingConfig) : Except String Unit :=
  if w.pathExists cfg.input_folder = false then
    Except.error ("Input folder does not exist: " ++ cfg.input_folder.render)
  else if w.isDirAt cfg.input_folder = false then
    Except.error ("Input path is not a directory: " ++ cfg.input_folder.render)
  else if w.pathExists cfg.sofa_file = false then
    Except.error ("SOFA file does not exist: " ++ cfg.sofa_file.render)
  else if cfg.audio_track < 0 then
    Except.error "Audio track must be non-negative"
  else if cfg.extensions.isEmpty then
    Except.error "At least one file extension must be specified"
  else
    Except.ok ()

/-- Whether `f` holds of some suffix of the list (including the list itself
and the empty suffix). -/
def anySuffix (f : List Char → Bool) : List Char → Bool
  | [] => f []
  | c :: cs => f (c :: cs) || anySuffix f cs

/-- Matcher for the shell glob patterns the program builds, with fnmatch
semantics for the star wildcard (a star consumes an arbitrary prefix, i.e.
the rest must match some suffix) and the question-mark wildcard (matches any
single character).  Character classes in brackets are the one fnmatch
construct not modelled: a bracket here is a literal character.  The patterns
the code builds are a literal followed by a star (cleanup, line 342) and a
star followed by a literal (discovery, line 366); the cleanup theorem
therefore assumes the job's base name contains no star, question mark or
opening bracket, the exact domain on which this matcher agrees with pathlib
glob. -/
def globMatch : List Char → List Char → Bool
  | [], cs => cs.isEmpty
  | p :: ps, cs =>
    if p = '*' then anySuffix (globMatch ps) cs
    else if p = '?' then
      match cs with
      | [] => false
      | _ :: cs' => globMatch ps cs'
    else
      match cs with
      | [] => false
      | c :: cs' => p == c && globMatch ps cs'

/-- Model of `dir.glob(pat)` over the immediate children of `dir` (lines 342
and 366): the files in the filesystem that are immediate children of `dir`
whose name matches the pattern. -/
def globDir (files : List FPath) (dir : FPath) (pat : String) : List FPath :=
  files.filter (fun p => p.isChildOf dir && globMatch pat.toList p.name.toList)

/-- Scratch directory (`self.temp_folder = config.output_folder / 'temp'`,
line 85). -/
def tempOf (cfg : ProcessingConfig) : FPath := cfg.output_folder.child "temp"

/-- Output path computed for an input file (line 238):
`output_folder / "<base>(sofa).<ext>"`. -/
def outputPathOf (cfg : ProcessingConfig) (input_file : FPath) : FPath :=
  cfg.output_folder.child (stemOf input_file.name ++ "(sofa)." ++ extOf input_file.name)

/-- Observable effects of a run, recorded in order. -/
inductive Event where
  /-- The per-file processing header log (lines 240-242), marking that the
  job was attempted. -/
  | jobStart (file : FPath)
  /-- The ffprobe metadata subprocess of `get_stream_info` (lines 204-213). -/
  | spawnQuery (file : FPath)
  /-- An engine subprocess launched by `run_command` (lines 157-164). -/
  | spawnEngine (description : String)
  /-- A dry-run log line of `run_command` (line 154). -/
  | dryRunLog (description : String)
  /-- The could-not-detect-max-volume warning (line 310). -/
  | warnNoVolume
  /-- The gain handed to the volume filter (lines 313, 318-320). -/
  | gainApplied (gain : Rat)
deriving DecidableEq, Repr

/-- Scripted behaviour of one engine subprocess: its exit code and combined
output lines, or absence of the binary (`FileNotFoundError`). -/
inductive CmdResult where
  | exitWith (code : Nat) (lines : List String)
  | notFound
deriving DecidableEq, Repr

/-- Environment for one job: whether the advisory stream-info logging block
(lines 252-278) raises an unexpected exception, and the scripted outcome of
each successive engine invocation. -/
structure JobEnv where
  queryRaises : Bool
  cmdResults : List CmdResult
deriving Repr

/-- State threaded through the stages of one job. -/
structure RunSt where
  files : List FPath
  script : List CmdResult
  events : List Event

/-- Pops the next scripted command outcome; an exhausted script behaves as a
silent success. -/
def headScript : List CmdResult → CmdResult × List CmdResult
  | [] => (CmdResult.exitWith 0 [], [])
  | r :: rs => (r, rs)

/-- Model of `run_command` (lines 133-191).  In dry-run mode it only logs and
reports `(None, 0)`.  Otherwise the subprocess runs, every output line is
scanned for the max-volume pattern, and a nonzero exit or a missing binary
becomes an `FFmpegCommandError`, modelled as the outer `none`.  On success the
engine has written its output file `creates` (when the command has one). -/
def runCmd (cfg : ProcessingConfig) (st : RunSt) (description : String)
    (creates : Option FPath) : RunSt × Option (Option Rat) :=
  if cfg.dry_run then
    ({ st with events := st.events ++ [Event.dryRunLog description] }, some none)
  else
    match headScript st.script with
    | (CmdResult.exitWith code lines, rest) =>
      let ev := st.events ++ [Event.spawnEngine description]
      if code ≠ 0 then
        ({ st with script := rest, events := ev }, none)
      else
        let files' :=
          match creates with
          | some p => if p ∈ st.files then st.files else st.files ++ [p]
          | none => st.files
        ({ files := files', script := rest, events := ev }, some (scanLines lines))
    | (CmdResult.notFound, rest) =>
      ({ st with script := rest }, none)

/-- Stages 3 and 4 of the pipeline (lines 297-322): either skipped entirely
via `skip_normalize`, or volume detection followed by the gain filter. -/
def normStage (cfg : ProcessingConfig) (st : RunSt) (base : String) : RunSt × Bool :=
  if cfg.skip_normalize then (st, true)
  else
    match runCmd cfg st "Detecting audio volume" none with
    | (st3, none) => (st3, false)
    | (st3, some mv) =>
      let g := computeGain mv
      let st3' :=
        { st3 with
          events := st3.events ++ (if g.2 then [Event.warnNoVolume] else [])
                      ++ [Event.gainApplied g.1] }
      match runCmd cfg st3' "Applying volume normalization"
          (some ((tempOf cfg).child (base ++ "_gain.flac"))) with
      | (st4, none) => (st4, false)
      | (st4, some _) => (st4, true)

/-- The per-job intermediate cleanup (lines 341-344): delete every file in
the scratch directory whose name matches `<base>*`, sparing the output file. -/
def cleanupIntermediates (files : List FPath) (temp : FPath) (base : String)
    (output_file : FPath) : List FPath :=
  files.filter (fun p =>
    !(p.isChildOf temp && globMatch (base ++ "*").toList p.name.toList
        && p != output_file))

/-- Stages 5 and 6 plus intermediate cleanup (lines 324-344): remux, fix the
default-track disposition into the final output file, then delete this job's
intermediates. -/
def finishStages (cfg : ProcessingConfig) (st : RunSt) (base extension : String)
    (output_file : FPath) : RunSt × Bool :=
  let temp := tempOf cfg
  match runCmd cfg st "Muxing processed audio with video"
      (some (temp.child (base ++ "_almost_done." ++ extension))) with
  | (st5, none) => (st5, false)
  | (st5, some _) =>
    match runCmd cfg st5 "Setting processed audio as default track"
        (some output_file) with
    | (st6, none) => (st6, false)
    | (st6, some _) =>
      ({ st6 with files := cleanupIntermediates st6.files temp base output_file }, true)

/-- Stages 1-6 of the pipeline (lines 280-344), between the stream-info query
and the success bookkeeping; `false` means an `FFmpegCommandError` aborted the
remaining stages. -/
def runPipeline (cfg : ProcessingConfig) (st0 : RunSt) (base extension : String)
    (output_file : FPath) : RunSt × Bool :=
  let temp := tempOf cfg
  match runCmd cfg st0 ("Extracting audio track " ++ toString cfg.audio_track)
      (some (temp.child (base ++ ".mkv"))) with
  | (st1, none) => (st1, false)
  | (st1, some _) =>
    match runCmd cfg st1 "Applying SOFA spatial audio filter"
        (some (temp.child (base ++ "_sofa.flac"))) with
    | (st2, none) => (st2, false)
    | (st2, some _) =>
      match normStage cfg st2 base with
      | (st4, false) => (st4, false)
      | (st4, true) => finishStages cfg st4 base extension output_file

/-- Model of `self.stats` (lines 87-91). -/
structure Stats where
  processed : Nat := 0
  failed : Nat := 0
  skipped : Nat := 0
deriving DecidableEq, Repr

/-- Which of the three terminal branches of `process_file` was taken. -/
inductive Outcome where
  | success
  | failed
  | skipped
deriving DecidableEq, Repr

/-- Result of one `process_file` call: the filesystem afterwards, the events
of the call, the updated counters, the branch taken and the returned
boolean. -/
structure JobOut where
  files : List FPath
  events : List Event
  stats : Stats
  outcome : Outcome
  ret : Bool
deriving Repr

/-- Model of `AudioProcessor.process_file` (lines 224-358).  If the output
path already exists the job is skipped before any subprocess; otherwise the
metadata query runs (launching its subprocess even in dry-run mode), an
unexpected exception in the advisory logging is caught at the job boundary,
and the pipeline result decides between the success and failure branches. -/
def processFile (cfg : ProcessingConfig) (env : JobEnv) (files0 : List FPath)
    (stats : Stats) (input_file : FPath) : JobOut :=
  let base := stemOf input_file.name
  let extension := extOf input_file.name
  let output_file := outputPathOf cfg input_file
  if output_file ∈ files0 then
    { files := files0, events := [Event.jobStart input_file],
      stats := { stats with skipped := stats.skipped + 1 },
      outcome := Outcome.skipped, ret := false }
  else
    let ev0 := [Event.jobStart input_file, Event.spawnQuery input_file]
    if env.queryRaises then
      { files := files0, events := ev0,
        stats := { stats with failed := stats.failed + 1 },
        outcome := Outcome.failed, ret := false }
    else
      let r := runPipeline cfg ⟨files0, env.cmdResults, ev0⟩ base extension output_file
      if r.2 then
        { files := r.1.files, events := r.1.events,
          stats := { stats with processed := stats.processed + 1 },
          outcome := Outcome.success, ret := true }
      else
        { files := r.1.files, events := r.1.events,
          stats := { stats with failed := stats.failed + 1 },
          outcome := Outcome.failed, ret := false }

/-- File discovery of `process_all` (lines 362-367): for each configured
extension, the immediate children of the input folder matching `*.<ext>`,
concatenated in extension order. -/
def discoverFiles (cfg : ProcessingConfig) (files : List FPath) : List FPath :=
  cfg.extensions.flatMap (fun ext => globDir files cfg.input_folder ("*." ++ ext))

/-- Result of a batch run. -/
structure BatchOut where
  files : List FPath
  events : List Event
  stats : Stats
deriving Repr

/-- The processing loop of `process_all` (lines 382-383): apply
`process_file` to each discovered file in order, threading the filesystem and
the counters; `i` indexes the per-job environments. -/
def runJobs (cfg : ProcessingConfig) (envs : Nat → JobEnv) :
    List FPath → Nat → List FPath → Stats → List Event → BatchOut
  | [], _, files, stats, events => ⟨files, events, stats⟩
  | f :: fs, i, files, stats, events =>
    let r := processFile cfg (envs i) files stats f
    runJobs cfg envs fs (i + 1) r.files r.stats (events ++ r.events)

/-- Model of `AudioProcessor.process_all` (lines 360-386): discover the files
once, return directly when nothing matches, else process every file. -/
def processAll (cfg : ProcessingConfig) (envs : Nat → JobEnv) (files0 : List FPath)
    (stats0 : Stats) : BatchOut :=
  let all_files := discoverFiles cfg files0
  if all_files.isEmpty then ⟨files0, [], stats0⟩
  else runJobs cfg envs all_files 0 files0 stats0 []

/-- Python `str.strip()` restricted to ASCII whitespace. -/
def pyStrip (s : String) : String :=
  ⟨((s.toList.dropWhile isPySpace).reverse.dropWhile isPySpace).reverse⟩

/-- Python `str.lower()` restricted to ASCII. -/
def pyLower (s : String) : String := ⟨s.toList.map Char.toLower⟩

/-- What the workspace teardown did: whether the user was prompted and
whether the scratch tree was deleted. -/
structure CleanupOut where
  prompted : Bool
  removed : Bool
deriving DecidableEq, Repr

/-- Model of `AudioProcessor.cleanup` (lines 398-418).  `tempExists` is
whether the scratch directory still exists, `response` what the prompt would
read. -/
def cleanup (cfg : ProcessingConfig) (tempExists : Bool) (response : String) :
    CleanupOut :=
  if cfg.keep_temp then ⟨false, false⟩
  else if cfg.dry_run then ⟨false, false⟩
  else if tempExists then
    if pyLower (pyStrip response) == "y" then ⟨true, true⟩
    else ⟨true, false⟩
  else ⟨false, false⟩

/-- Sum of the three batch counters. -/
def statTotal (s : Stats) : Nat := s.processed + s.failed + s.skipped

/-- The files whose processing was started, in order. -/
def jobStarts (evs : List Event) : List FPath :=
  evs.filterMap (fun e =>
    match e with
    | Event.jobStart f => some f
    | _ => none)

/-- Descriptions of the engine subprocesses actually launched, in order. -/
def spawnDescrs (evs : List Event) : List String :=
  evs.filterMap (fun e =>
    match e with
    | Event.spawnEngine d => some d
    | _ => none)

/-- Number of metadata-query subprocess launches. -/
def querySpawnCount (evs : List Event) : Nat :=
  (evs.filterMap (fun e =>
    match e with
    | Event.spawnQuery f => some f
    | _ => none)).length

/-- Number of dry-run log lines. -/
def dryRunCount (evs : List Event) : Nat :=
  (evs.filterMap (fun e =>
    match e with
    | Event.dryRunLog d => some d
    | _ => none)).length

/-- The new counters equal the old with exactly one of the three fields
incremented by one. -/
def bumpsOne (s t : Stats) : Prop :=
  t = { s with processed := s.processed + 1 }
    ∨ t = { s with failed := s.failed + 1 }
    ∨ t = { s with skipped := s.skipped + 1 }

@[simp] lemma jobStarts_nil : jobStarts [] = [] := rfl

@[simp] lemma jobStarts_cons_jobStart (f : FPath) (r : List Event) :
    jobStarts (Event.jobStart f :: r) = f :: jobStarts r := rfl

@[simp] lemma jobStarts_cons_spawnQuery (f : FPath) (r : List Event) :
    jobStarts (Event.spawnQuery f :: r) = jobStarts r := rfl

@[simp] lemma jobStarts_cons_spawnEngine (d : String) (r : List Event) :
    jobStarts (Event.spawnEngine d :: r) = jobStarts r := rfl

@[simp] lemma jobStarts_cons_dryRunLog (d : String) (r : List Event) :
    jobStarts (Event.dryRunLog d :: r) = jobStarts r := rfl

@[simp] lemma jobStarts_cons_warnNoVolume (r : List Event) :
    jobStarts (Event.warnNoVolume :: r) = jobStarts r := rfl

@[simp] lemma jobStarts_cons_gainApplied (g : Rat) (r : List Event) :
    jobStarts (Event.gainApplied g :: r) = jobStarts r := rfl

@[simp] lemma jobStarts_append (a b : List Event) :
    jobStarts (a ++ b) = jobStarts a ++ jobStarts b := by
  simp [jobStarts, List.filterMap_append]

lemma runCmd_jobStarts (cfg : ProcessingConfig) (st : RunSt) (d : String)
    (c : Option FPath) :
    jobStarts (runCmd cfg st d c).1.events = jobStarts st.events := by
  unfold runCmd
  split
  · simp
  · split
    · split_ifs <;> simp
    · rfl

lemma normStage_jobStarts (cfg : ProcessingConfig) (st : RunSt) (base : String) :
    jobStarts (normStage cfg st base).1.events = jobStarts st.events := by
  unfold normStage
  split_ifs with h
  · rfl
  · split
    next st3 heq =>
      have h3 := runCmd_jobStarts cfg st "Detecting audio volume" none
      rw [heq] at h3
      exact h3
    next st3 mv heq =>
      have h3 := runCmd_jobStarts cfg st "Detecting audio volume" none
      rw [heq] at h3
      dsimp only
      split
      next st4 heq4 =>
        have h4 := runCmd_jobStarts cfg
          { st3 with
            events := st3.events
              ++ (if (computeGain mv).2 then [Event.warnNoVolume] else [])
              ++ [Event.gainApplied (computeGain mv).1] }
          "Applying volume normalization"
          (some ((tempOf cfg).child (base ++ "_gain.flac")))
        rw [heq4] at h4
        simp only [h4]
        cases hg : (computeGain mv).2 <;> simp_all
      next st4 mv4 heq4 =>
        have h4 := runCmd_jobStarts cfg
          { st3 with
            events := st3.events
              ++ (if (computeGain mv).2 then [Event.warnNoVolume] else [])
              ++ [Event.gainApplied (computeGain mv).1] }
          "Applying volume normalization"
          (some ((tempOf cfg).child (base ++ "_gain.flac")))
        rw [heq4] at h4
        simp only [h4]
        cases hg : (computeGain mv).2 <;> simp_all

lemma finishStages_jobStarts (cfg : ProcessingConfig) (st : RunSt)
    (base extension : String) (output_file : FPath) :
    jobStarts (finishStages cfg st base extension output_file).1.events
      = jobStarts st.events := by
  unfold finishStages
  dsimp only
  split
  next st5 heq =>
    have h5 := runCmd_jobStarts cfg st "Muxing processed audio with video"
      (some ((tempOf cfg).child (base ++ "_almost_done." ++ extension)))
    rw [heq] at h5
    exact h5
  next st5 mv5 heq =>
    have h5 := runCmd_jobStarts cfg st "Muxing processed audio with video"
      (some ((tempOf cfg).child (base ++ "_almost_done." ++ extension)))
    rw [heq] at h5
    split
    next st6 heq6 =>
      have h6 := runCmd_jobStarts cfg st5 "Setting processed audio as default track"
        (some output_file)
      rw [heq6] at h6
      exact h6.trans h5
    next st6 mv6 heq6 =>
      have h6 := runCmd_jobStarts cfg st5 "Setting processed audio as default track"
        (some output_file)
      rw [heq6] at h6
      exact h6.trans h5

lemma runPipeline_jobStarts (cfg : ProcessingConfig) (st0 : RunSt)
    (base extension : String) (output_file : FPath) :
    jobStarts (runPipeline cfg st0 base extension output_file).1.events
      = jobStarts st0.events := by
  unfold runPipeline
  dsimp only
  split
  next st1 heq =>
    have h1 := runCmd_jobStarts cfg st0
      ("Extracting audio track " ++ toString cfg.audio_track)
      (some ((tempOf cfg).child (base ++ ".mkv")))
    rw [heq] at h1
    exact h1
  next st1 mv1 heq =>
    have h1 := runCmd_jobStarts cfg st0
      ("Extracting audio track " ++ toString cfg.audio_track)
      (some ((tempOf cfg).child (base ++ ".mkv")))
    rw [heq] at h1
    split
    next st2 heq2 =>
      have h2 := runCmd_jobStarts cfg st1 "Applying SOFA spatial audio filter"
        (some ((tempOf cfg).child (base ++ "_sofa.flac")))
      rw [heq2] at h2
      exact h2.trans h1
    next st2 mv2 heq2 =>
      have h2 := runCmd_jobStarts cfg st1 "Applying SOFA spatial audio filter"
        (some ((tempOf cfg).child (base ++ "_sofa.flac")))
      rw [heq2] at h2
      split
      next st4 heq4 =>
        have h4 := normStage_jobStarts cfg st2 base
        rw [heq4] at h4
        exact (h4.trans h2).trans h1
      next st4 heq4 =>
        have h4 := normStage_jobStarts cfg st2 base
        rw [heq4] at h4
        exact ((finishStages_jobStarts cfg st4 base extension output_file).trans
          ((h4.trans h2).trans h1))

lemma processFile_jobStarts (cfg : ProcessingConfig) (env : JobEnv)
    (files0 : List FPath) (stats : Stats) (f : FPath) :
    jobStarts (processFile cfg env files0 stats f).events = [f] := by
  simp only [processFile]
  split_ifs with h1 h2 h3
  · simp
  · simp
  · rw [runPipeline_jobStarts]
    simp
  · rw [runPipeline_jobStarts]
    simp

lemma processFile_statTotal (cfg : ProcessingConfig) (env : JobEnv)
    (files0 : List FPath) (stats : Stats) (f : FPath) :
    statTotal (processFile cfg env files0 stats f).stats = statTotal stats + 1 := by
  simp only [processFile]
  split_ifs <;> simp [statTotal] <;> omega

lemma processFile_bumpsOne (cfg : ProcessingConfig) (env : JobEnv)
    (files0 : List FPath) (stats : Stats) (f : FPath) :
    bumpsOne stats (processFile cfg env files0 stats f).stats := by
  simp only [processFile]
  split_ifs
  · exact Or.inr (Or.inr rfl)
  · exact Or.inr (Or.inl rfl)
  · exact Or.inl rfl
  · exact Or.inr (Or.inl rfl)

lemma runJobs_spec (cfg : ProcessingConfig) (envs : Nat → JobEnv) :
    ∀ (fs : List FPath) (i : Nat) (files : List FPath) (stats : Stats)
      (events : List Event),
      statTotal (runJobs cfg envs fs i files stats events).stats
          = statTotal stats + fs.length
        ∧ jobStarts (runJobs cfg envs fs i files stats events).events
            = jobStarts events ++ fs := by
  intro fs
  induction fs with
  | nil =>
    intro i files stats events
    simp [runJobs]
  | cons f fs ih =>
    intro i files stats events
    simp only [runJobs]
    obtain ⟨h1, h2⟩ := ih (i + 1) (processFile cfg (envs i) files stats f).files
      (processFile cfg (envs i) files stats f).stats
      (events ++ (processFile cfg (envs i) files stats f).events)
    refine ⟨?_, ?_⟩
    · rw [h1, processFile_statTotal]
      simp
      omega
    · rw [h2, jobStarts_append, processFile_jobStarts]
      simp

/-- C2: for every batch, the counter total grows by exactly the number of
discovered files (the discovered count equals processed + failed + skipped
when the counters start at zero), every discovered job is attempted in order
whatever the per-job subprocess outcomes are, and each process_file call
increments exactly one counter by exactly one. -/
theorem claim_c2_accounting :
    ∀ (cfg : ProcessingConfig) (envs : Nat → JobEnv) (files0 : List FPath)
      (stats0 : Stats),
    (statTotal (processAll cfg envs files0 stats0).stats
        = statTotal stats0 + (discoverFiles cfg files0).length
      ∧ jobStarts (processAll cfg envs files0 stats0).events
          = discoverFiles cfg files0)
      ∧ ∀ (env : JobEnv) (files : List FPath) (stats : Stats) (f : FPath),
          bumpsOne stats (processFile cfg env files stats f).stats := by
  intro cfg envs files0 stats0
  refine ⟨?_, fun env files stats f => processFile_bumpsOne cfg env files stats f⟩
  simp only [processAll]
  split_ifs with h
  · have he : discoverFiles cfg files0 = [] := List.isEmpty_iff.mp h
    simp [he]
  · obtain ⟨h1, h2⟩ := runJobs_spec cfg envs (discoverFiles cfg files0) 0 files0 stats0 []
    exact ⟨h1, by simpa using h2⟩

/-- Generalization of the scanning fold of run_command: folding the
line-update over any initial value yields the last extracted value, or the
initial value when no line matches. -/
lemma scan_aux (l : List String) :
    ∀ init : Option Rat,
      l.foldl
          (fun acc line =>
            match lineVol line with
            | some v => some v
            | none => acc)
          init
        = ((l.filterMap lineVol).getLast?).elim init some := by
  induction l with
  | nil =>
    intro init
    rfl
  | cons a l ih =>
    intro init
    rw [List.foldl_cons, ih]
    cases ha : lineVol a with
    | none => simp [List.filterMap_cons, ha]
    | some v =>
      simp only [List.filterMap_cons, ha]
      cases hfl : l.filterMap lineVol with
      | nil => simp
      | cons b m =>
        rw [List.getLast?_cons_cons]
        cases hbm : (b :: m).getLast? with
        | none => exact absurd (List.getLast?_eq_none_iff.mp hbm) (by simp)
        | some w => simp

/-- C7: the scan of run_command returns the value extracted from the last
matching output line of the invocation, and None when no line matches. -/
theorem claim_c7_lastmatch : ∀ lines : List String,
    scanLines lines = (lines.filterMap lineVol).getLast? := by
  intro lines
  rw [scanLines, scan_aux]
  cases h : (lines.filterMap lineVol).getLast? <;> simp

@[simp] lemma spawnDescrs_nil : spawnDescrs [] = [] := rfl

@[simp] lemma spawnDescrs_cons_jobStart (f : FPath) (r : List Event) :
    spawnDescrs (Event.jobStart f :: r) = spawnDescrs r := rfl

@[simp] lemma spawnDescrs_cons_spawnQuery (f : FPath) (r : List Event) :
    spawnDescrs (Event.spawnQuery f :: r) = spawnDescrs r := rfl

@[simp] lemma spawnDescrs_cons_spawnEngine (d : String) (r : List Event) :
    spawnDescrs (Event.spawnEngine d :: r) = d :: spawnDescrs r := rfl

@[simp] lemma spawnDescrs_cons_dryRunLog (d : String) (r : List Event) :
    spawnDescrs (Event.dryRunLog d :: r) = spawnDescrs r := rfl

@[simp] lemma spawnDescrs_cons_warnNoVolume (r : List Event) :
    spawnDescrs (Event.warnNoVolume :: r) = spawnDescrs r := rfl

@[simp] lemma spawnDescrs_cons_gainApplied (g : Rat) (r : List Event) :
    spawnDescrs (Event.gainApplied g :: r) = spawnDescrs r := rfl

@[simp] lemma spawnDescrs_append (a b : List Event) :
    spawnDescrs (a ++ b) = spawnDescrs a ++ spawnDescrs b := by
  simp [spawnDescrs, List.filterMap_append]

/-- Inversion of a successful run_command invocation outside dry-run mode:
exactly one engine subprocess was launched, and the filesystem gained exactly
the command's output file. -/
lemma runCmd_ok (cfg : ProcessingConfig) (st : RunSt) (d : String) (c : Option FPath)
    (st' : RunSt) (mv : Option Rat) (hdry : cfg.dry_run = false)
    (h : runCmd cfg st d c = (st', some mv)) :
    st'.events = st.events ++ [Event.spawnEngine d]
      ∧ ∀ p : FPath, p ∈ st'.files ↔ (p ∈ st.files ∨ c = some p) := by
  simp only [runCmd, hdry, Bool.false_eq_true, if_false] at h
  rcases hs : headScript st.script with ⟨r, rest⟩
  rw [hs] at h
  cases r with
  | notFound => simp at h
  | exitWith code lines =>
    dsimp only at h
    by_cases hc : code = 0
    · subst hc
      rw [if_neg (by simp)] at h
      injection h with hA hB
      subst hA
      refine ⟨rfl, ?_⟩
      intro p
      cases c with
      | none => simp
      | some q =>
        dsimp only
        split_ifs with hq
        · refine ⟨fun hp => Or.inl hp, ?_⟩
          rintro (hp | hp)
          · exact hp
          · exact (Option.some.inj hp) ▸ hq
        · simp [List.mem_append, eq_comm]
    · rw [if_pos hc] at h
      simp at h

/-- Membership after the per-job intermediate cleanup. -/
lemma mem_cleanupIntermediates (files : List FPath) (temp : FPath) (base : String)
    (out p : FPath) :
    p ∈ cleanupIntermediates files temp base out ↔
      (p ∈ files
        ∧ ¬(p.isChildOf temp = true
              ∧ globMatch (base ++ "*").toList p.name.toList = true ∧ p ≠ out)) := by
  simp only [cleanupIntermediates, List.mem_filter]
  constructor
  · rintro ⟨h1, h2⟩
    refine ⟨h1, ?_⟩
    rintro ⟨ha, hb, hc⟩
    rw [ha, hb, (bne_iff_ne).mpr hc] at h2
    simp at h2
  · rintro ⟨h1, h2⟩
    refine ⟨h1, ?_⟩
    cases hA : p.isChildOf temp
    · simp
    · cases hB : globMatch (base ++ "*").toList p.name.toList
      · simp [hB]
      · by_cases hC : p = out
        · simp [hC]
        · exact absurd ⟨hA, hB, hC⟩ h2

/-- Variant of runCmd_ok for a command with an output file. -/
lemma runCmd_ok_some (cfg : ProcessingConfig) (st : RunSt) (d : String) (q : FPath)
    (st' : RunSt) (mv : Option Rat) (hdry : cfg.dry_run = false)
    (h : runCmd cfg st d (some q) = (st', some mv)) :
    st'.events = st.events ++ [Event.spawnEngine d]
      ∧ ∀ p : FPath, p ∈ st'.files ↔ (p ∈ st.files ∨ p = q) := by
  obtain ⟨e, f⟩ := runCmd_ok cfg st d (some q) st' mv hdry h
  refine ⟨e, fun p => ?_⟩
  rw [f p]
  simp [eq_comm]

/-- Variant of runCmd_ok for a command without an output file. -/
lemma runCmd_ok_none (cfg : ProcessingConfig) (st : RunSt) (d : String)
    (st' : RunSt) (mv : Option Rat) (hdry : cfg.dry_run = false)
    (h : runCmd cfg st d none = (st', some mv)) :
    st'.events = st.events ++ [Event.spawnEngine d]
      ∧ ∀ p : FPath, p ∈ st'.files ↔ p ∈ st.files := by
  obtain ⟨e, f⟩ := runCmd_ok cfg st d none st' mv hdry h
  refine ⟨e, fun p => ?_⟩
  rw [f p]
  simp

/-- Inversion of a successful normalization phase outside dry-run mode. -/
lemma normStage_ok (cfg : ProcessingConfig) (st : RunSt) (base : String)
    (hdry : cfg.dry_run = false)
    (h : (normStage cfg st base).2 = true) :
    spawnDescrs (normStage cfg st base).1.events
        = spawnDescrs st.events
            ++ (if cfg.skip_normalize then []
                else ["Detecting audio volume", "Applying volume normalization"])
      ∧ ∀ p : FPath, p ∈ (normStage cfg st base).1.files ↔
          (p ∈ st.files
            ∨ (cfg.skip_normalize = false
                ∧ p = (tempOf cfg).child (base ++ "_gain.flac"))) := by
  by_cases hskip : cfg.skip_normalize = true
  · simp [normStage, hskip]
  · have hskip' : cfg.skip_normalize = false := by simp_all
    simp only [normStage, hskip', Bool.false_eq_true, if_false] at h ⊢
    rcases h3 : runCmd cfg st "Detecting audio volume" none with ⟨st3, r3⟩
    rw [h3] at h
    cases r3 with
    | none => simp at h
    | some mv =>
      dsimp only at h ⊢
      obtain ⟨e3, f3⟩ := runCmd_ok_none cfg st "Detecting audio volume" st3 mv hdry h3
      rcases h4 : runCmd cfg
          { files := st3.files, script := st3.script,
            events := (st3.events
                ++ if (computeGain mv).2 = true then [Event.warnNoVolume] else [])
              ++ [Event.gainApplied (computeGain mv).1] }
          "Applying volume normalization"
          (some ((tempOf cfg).child (base ++ "_gain.flac"))) with ⟨st4, r4⟩
      rw [h4] at h
      cases r4 with
      | none => simp at h
      | some mv4 =>
        dsimp only at h ⊢
        obtain ⟨e4, f4⟩ := runCmd_ok_some cfg _ "Applying volume normalization"
          ((tempOf cfg).child (base ++ "_gain.flac")) st4 mv4 hdry h4
        constructor
        · rw [e4]
          cases hg : (computeGain mv).2 <;> simp [hg, e3]
        · intro p
          rw [f4 p]
          dsimp only
          rw [f3 p]
          simp [hskip']

/-- Inversion of the successful remux, disposition and cleanup phase outside
dry-run mode. -/
lemma finishStages_ok (cfg : ProcessingConfig) (st : RunSt) (base extension : String)
    (output_file : FPath) (hdry : cfg.dry_run = false)
    (h : (finishStages cfg st base extension output_file).2 = true) :
    spawnDescrs (finishStages cfg st base extension output_file).1.events
        = spawnDescrs st.events
            ++ ["Muxing processed audio with video",
                "Setting processed audio as default track"]
      ∧ ∀ p : FPath, p ∈ (finishStages cfg st base extension output_file).1.files ↔
          ((p ∈ st.files
              ∨ p = (tempOf cfg).child (base ++ "_almost_done." ++ extension)
              ∨ p = output_file)
            ∧ ¬(p.isChildOf (tempOf cfg) = true
                  ∧ globMatch (base ++ "*").toList p.name.toList = true
                  ∧ p ≠ output_file)) := by
  simp only [finishStages] at h ⊢
  rcases h5 : runCmd cfg st "Muxing processed audio with video"
      (some ((tempOf cfg).child (base ++ "_almost_done." ++ extension))) with ⟨st5, r5⟩
  rw [h5] at h
  cases r5 with
  | none => simp at h
  | some mv5 =>
    dsimp only at h ⊢
    obtain ⟨e5, f5⟩ := runCmd_ok_some cfg st "Muxing processed audio with video"
      ((tempOf cfg).child (base ++ "_almost_done." ++ extension)) st5 mv5 hdry h5
    rcases h6 : runCmd cfg st5 "Setting processed audio as default track"
        (some output_file) with ⟨st6, r6⟩
    rw [h6] at h
    cases r6 with
    | none => simp at h
    | some mv6 =>
      dsimp only at h ⊢
      obtain ⟨e6, f6⟩ := runCmd_ok_some cfg st5 "Setting processed audio as default track"
        output_file st6 mv6 hdry h6
      constructor
      · rw [e6, e5]
        simp
      · intro p
        rw [mem_cleanupIntermediates, f6 p, f5 p]
        tauto

/-- The files the engine writes during a successful pipeline run: the three
or four intermediates in the scratch directory plus the final output. -/
def stageFiles (cfg : ProcessingConfig) (base extension : String) (out : FPath) :
    List FPath :=
  [(tempOf cfg).child (base ++ ".mkv"), (tempOf cfg).child (base ++ "_sofa.flac")]
    ++ (if cfg.skip_normalize then [] else [(tempOf cfg).child (base ++ "_gain.flac")])
    ++ [(tempOf cfg).child (base ++ "_almost_done." ++ extension), out]

/-- Membership in the list of files a successful pipeline writes. -/
lemma mem_stageFiles (cfg : ProcessingConfig) (base extension : String)
    (out : FPath) (q : FPath) :
    q ∈ stageFiles cfg base extension out ↔
      (q = (tempOf cfg).child (base ++ ".mkv")
        ∨ q = (tempOf cfg).child (base ++ "_sofa.flac")
        ∨ (cfg.skip_normalize = false ∧ q = (tempOf cfg).child (base ++ "_gain.flac"))
        ∨ q = (tempOf cfg).child (base ++ "_almost_done." ++ extension)
        ∨ q = out) := by
  by_cases hg : cfg.skip_normalize = true
  · simp [stageFiles, hg]
  · have hg' : cfg.skip_normalize = false := by simp_all
    simp [stageFiles, hg']

/-- Inversion of a fully successful pipeline outside dry-run mode: the exact
engine invocations, in order, and the resulting filesystem membership. -/
lemma runPipeline_ok (cfg : ProcessingConfig) (st0 : RunSt) (base extension : String)
    (output_file : FPath) (hdry : cfg.dry_run = false)
    (h : (runPipeline cfg st0 base extension output_file).2 = true) :
    spawnDescrs (runPipeline cfg st0 base extension output_file).1.events
        = spawnDescrs st0.events
            ++ ("Extracting audio track " ++ toString cfg.audio_track)
              :: "Applying SOFA spatial audio filter"
              :: ((if cfg.skip_normalize then []
                  else ["Detecting audio volume", "Applying volume normalization"])
                ++ ["Muxing processed audio with video",
                    "Setting processed audio as default track"])
      ∧ ∀ p : FPath, p ∈ (runPipeline cfg st0 base extension output_file).1.files ↔
          ((p ∈ st0.files ∨ p ∈ stageFiles cfg base extension output_file)
            ∧ ¬(p.isChildOf (tempOf cfg) = true
                  ∧ globMatch (base ++ "*").toList p.name.toList = true
                  ∧ p ≠ output_file)) := by
  simp only [runPipeline] at h ⊢
  rcases h1 : runCmd cfg st0 ("Extracting audio track " ++ toString cfg.audio_track)
      (some ((tempOf cfg).child (base ++ ".mkv"))) with ⟨st1, r1⟩
  rw [h1] at h
  cases r1 with
  | none => simp at h
  | some mv1 =>
    dsimp only at h ⊢
    obtain ⟨e1, f1⟩ := runCmd_ok_some cfg st0
      ("Extracting audio track " ++ toString cfg.audio_track)
      ((tempOf cfg).child (base ++ ".mkv")) st1 mv1 hdry h1
    rcases h2 : runCmd cfg st1 "Applying SOFA spatial audio filter"
        (some ((tempOf cfg).child (base ++ "_sofa.flac"))) with ⟨st2, r2⟩
    rw [h2] at h
    cases r2 with
    | none => simp at h
    | some mv2 =>
      dsimp only at h ⊢
      obtain ⟨e2, f2⟩ := runCmd_ok_some cfg st1 "Applying SOFA spatial audio filter"
        ((tempOf cfg).child (base ++ "_sofa.flac")) st2 mv2 hdry h2
      rcases h4 : normStage cfg st2 base with ⟨st4, r4⟩
      rw [h4] at h
      cases r4 with
      | false => simp at h
      | true =>
        dsimp only at h ⊢
        have hn : (normStage cfg st2 base).2 = true := by rw [h4]
        obtain ⟨en, fn⟩ := normStage_ok cfg st2 base hdry hn
        rw [h4] at en fn
        dsimp only at en fn
        obtain ⟨ef, ff⟩ := finishStages_ok cfg st4 base extension output_file hdry h
        constructor
        · rw [ef, en, e2, e1]
          simp
        · intro p
          rw [ff p, fn p, f2 p, f1 p, mem_stageFiles]
          tauto

/-- Inversion of a successful process_file call: the output path was new, the
advisory logging raised nothing, the pipeline succeeded, and result events
and files are the pipeline's. -/
lemma processFile_success_inv (cfg : ProcessingConfig) (env : JobEnv)
    (files0 : List FPath) (stats : Stats) (f : FPath)
    (h : (processFile cfg env files0 stats f).outcome = Outcome.success) :
    outputPathOf cfg f ∉ files0 ∧ env.queryRaises = false
      ∧ (runPipeline cfg ⟨files0, env.cmdResults, [Event.jobStart f, Event.spawnQuery f]⟩
            (stemOf f.name) (extOf f.name) (outputPathOf cfg f)).2 = true
      ∧ (processFile cfg env files0 stats f).events
          = (runPipeline cfg ⟨files0, env.cmdResults, [Event.jobStart f, Event.spawnQuery f]⟩
              (stemOf f.name) (extOf f.name) (outputPathOf cfg f)).1.events
      ∧ (processFile cfg env files0 stats f).files
          = (runPipeline cfg ⟨files0, env.cmdResults, [Event.jobStart f, Event.spawnQuery f]⟩
              (stemOf f.name) (extOf f.name) (outputPathOf cfg f)).1.files := by
  simp only [processFile] at h ⊢
  split_ifs at h ⊢ with h1 h2 h3
  exact ⟨h1, by simpa using h2, h3, rfl, rfl⟩

/-- C5: on the success path of a real (non-dry-run) job, process_file makes
exactly six engine invocations — the five pipeline stages extract,
spatialize, measure, normalize, remux plus one combined disposition-fix
call — and exactly four when normalization is skipped. -/
theorem claim_c5_invocations (cfg : ProcessingConfig) (env : JobEnv)
    (files0 : List FPath) (stats : Stats) (f : FPath)
    (hdry : cfg.dry_run = false)
    (hsucc : (processFile cfg env files0 stats f).outcome = Outcome.success) :
    spawnDescrs (processFile cfg env files0 stats f).events
        = ("Extracting audio track " ++ toString cfg.audio_track)
            :: "Applying SOFA spatial audio filter"
            :: ((if cfg.skip_normalize then []
                else ["Detecting audio volume", "Applying volume normalization"])
              ++ ["Muxing processed audio with video",
                  "Setting processed audio as default track"])
      ∧ (spawnDescrs (processFile cfg env files0 stats f).events).length
          = if cfg.skip_normalize then 4 else 6 := by
  obtain ⟨h1, h2, h3, h4, h5⟩ := processFile_success_inv cfg env files0 stats f hsucc
  obtain ⟨hs, _⟩ := runPipeline_ok cfg
    ⟨files0, env.cmdResults, [Event.jobStart f, Event.spawnQuery f]⟩
    (stemOf f.name) (extOf f.name) (outputPathOf cfg f) hdry h3
  rw [h4, hs]
  refine ⟨by simp, ?_⟩
  by_cases hg : cfg.skip_normalize = true
  · simp [hg]
  · have hg' : cfg.skip_normalize = false := by simp_all
    simp [hg']

/-- Counterexample to C5 as stated: a dry-run job completes successfully
(the success branch is taken, the processed counter moves) with zero engine
invocations — neither 5 plus 1 or 2 disposition calls, nor 4. -/
theorem claim_c5_counterexample :
    (processFile
        ⟨⟨["in"]⟩, ⟨["out"]⟩, ["mkv"], 1, ⟨["irc_1003.sofa"]⟩, "repeat+24",
          false, true, false⟩
        ⟨false, []⟩ [] ⟨0, 0, 0⟩ ⟨["in", "clip.mkv"]⟩).outcome = Outcome.success
      ∧ ¬((spawnDescrs (processFile
            ⟨⟨["in"]⟩, ⟨["out"]⟩, ["mkv"], 1, ⟨["irc_1003.sofa"]⟩, "repeat+24",
              false, true, false⟩
            ⟨false, []⟩ [] ⟨0, 0, 0⟩ ⟨["in", "clip.mkv"]⟩).events).length = 6
          ∨ (spawnDescrs (processFile
              ⟨⟨["in"]⟩, ⟨["out"]⟩, ["mkv"], 1, ⟨["irc_1003.sofa"]⟩, "repeat+24",
                false, true, false⟩
              ⟨false, []⟩ [] ⟨0, 0, 0⟩ ⟨["in", "clip.mkv"]⟩).events).length = 7
          ∨ (spawnDescrs (processFile
              ⟨⟨["in"]⟩, ⟨["out"]⟩, ["mkv"], 1, ⟨["irc_1003.sofa"]⟩, "repeat+24",
                false, true, false⟩
              ⟨false, []⟩ [] ⟨0, 0, 0⟩ ⟨["in", "clip.mkv"]⟩).events).length = 4) := by
  decide

/-- Witness for C5: a concrete successful job with a six-entry success script
launches exactly six engine subprocesses. -/
theorem claim_c5_invocations_witness :
    (spawnDescrs (processFile
        ⟨⟨["in"]⟩, ⟨["out"]⟩, ["mkv"], 1, ⟨["irc_1003.sofa"]⟩, "repeat+24",
          false, false, false⟩
        ⟨false, [CmdResult.exitWith 0 [], CmdResult.exitWith 0 [],
          CmdResult.exitWith 0 [], CmdResult.exitWith 0 [],
          CmdResult.exitWith 0 [], CmdResult.exitWith 0 []]⟩
        [] ⟨0, 0, 0⟩ ⟨["in", "clip.mkv"]⟩).events).length = 6 :=
  (claim_c5_invocations _ _ _ _ _ rfl (by decide)).2

@[simp] lemma FPath.name_child (p : FPath) (n : String) : (p.child n).name = n := by
  simp [FPath.child, FPath.name]

@[simp] lemma FPath.child_isChildOf (dir : FPath) (n : String) :
    (dir.child n).isChildOf dir = true := by
  simp [FPath.child, FPath.isChildOf]

/-- The computed output path lies in the output folder, not in the scratch
directory. -/
lemma outputPath_not_in_temp (cfg : ProcessingConfig) (f : FPath) :
    (outputPathOf cfg f).isChildOf (tempOf cfg) = false := by
  simp only [outputPathOf, tempOf, FPath.child, FPath.isChildOf,
    List.length_append, List.length_singleton, Bool.and_eq_false_iff]
  left
  simp

lemma anySuffix_true (f : List Char → Bool) (h : f [] = true) :
    ∀ cs : List Char, anySuffix f cs = true := by
  intro cs
  induction cs with
  | nil => simpa [anySuffix] using h
  | cons c cs ih => simp [anySuffix, ih]

lemma globMatch_star_all (cs : List Char) : globMatch ['*'] cs = true := by
  have h : globMatch ['*'] cs = anySuffix (globMatch []) cs := by
    rw [globMatch.eq_def]
    simp
  rw [h]
  exact anySuffix_true _ rfl cs

/-- A pattern that is a wildcard-free literal followed by a single star
matches exactly the words having the literal as a prefix. -/
lemma globMatch_lit_star : ∀ (lit cs : List Char), '*' ∉ lit → '?' ∉ lit →
    (globMatch (lit ++ ['*']) cs = true ↔ lit <+: cs) := by
  intro lit
  induction lit with
  | nil =>
    intro cs _ _
    simpa using globMatch_star_all cs
  | cons l ls ih =>
    intro cs hstar hques
    have hl : l ≠ '*' := fun hh => hstar (by rw [hh]; exact List.mem_cons_self '*' ls)
    have hq : l ≠ '?' := fun hh => hques (by rw [hh]; exact List.mem_cons_self '?' ls)
    have hstar' : '*' ∉ ls := fun hh => hstar (List.mem_cons_of_mem l hh)
    have hques' : '?' ∉ ls := fun hh => hques (List.mem_cons_of_mem l hh)
    rw [List.cons_append, globMatch.eq_def]
    dsimp only
    rw [if_neg hl, if_neg hq]
    cases cs with
    | nil => simp
    | cons c cs' =>
      rw [Bool.and_eq_true, beq_iff_eq, ih cs' hstar' hques', List.cons_prefix_cons]

/-- C1: a job whose output path pre-exists is skipped: only the skipped
counter moves, the filesystem is untouched, and the only event is the job
header log — no subprocess of either kind is launched. -/
theorem claim_c1_skip (cfg : ProcessingConfig) (env : JobEnv) (files0 : List FPath)
    (stats : Stats) (input_file : FPath)
    (h : outputPathOf cfg input_file ∈ files0) :
    processFile cfg env files0 stats input_file =
      { files := files0, events := [Event.jobStart input_file],
        stats := { stats with skipped := stats.skipped + 1 },
        outcome := Outcome.skipped, ret := false } := by
  simp only [processFile]
  rw [if_pos h]

/-- Witness for C1 at a concrete job whose output already exists. -/
theorem claim_c1_skip_witness :
    processFile
        ⟨⟨["in"]⟩, ⟨["out"]⟩, ["mkv"], 1, ⟨["irc_1003.sofa"]⟩, "repeat+24",
          false, false, false⟩
        ⟨false, []⟩ [⟨["out", "clip(sofa).mkv"]⟩] ⟨0, 0, 0⟩ ⟨["in", "clip.mkv"]⟩ =
      { files := [⟨["out", "clip(sofa).mkv"]⟩],
        events := [Event.jobStart ⟨["in", "clip.mkv"]⟩],
        stats := ⟨0, 0, 1⟩, outcome := Outcome.skipped, ret := false } :=
  claim_c1_skip _ _ _ _ _ (by decide)

/-- C3: the gain applied by the normalization stage is the negation of the
measured peak loudness — a measured maximum of -6.0 dB yields a +6.0 dB
gain — and an unavailable measurement yields 0 dB with the warning logged. -/
theorem claim_c3_gain :
    computeGain (some (-6)) = (6, false) ∧ computeGain none = (0, true)
      ∧ ∀ v : Rat, computeGain (some v) = (-v, false) :=
  ⟨by decide, by decide, fun _ => rfl⟩

/-- C4: validation fails exactly when the input folder is missing or not a
directory, the SOFA file is missing, the audio track index is negative, or
the extension list is empty; otherwise it returns normally. -/
theorem claim_c4_validate : ∀ (w : World) (cfg : ProcessingConfig),
    (∃ msg, validate w cfg = Except.error msg) ↔
      (w.pathExists cfg.input_folder = false ∨ w.isDirAt cfg.input_folder = false
        ∨ w.pathExists cfg.sofa_file = false ∨ cfg.audio_track < 0
        ∨ cfg.extensions = []) := by
  intro w cfg
  unfold validate
  split_ifs with h1 h2 h3 h4 h5
  · exact iff_of_true ⟨_, rfl⟩ (Or.inl h1)
  · exact iff_of_true ⟨_, rfl⟩ (Or.inr (Or.inl h2))
  · exact iff_of_true ⟨_, rfl⟩ (Or.inr (Or.inr (Or.inl h3)))
  · exact iff_of_true ⟨_, rfl⟩ (Or.inr (Or.inr (Or.inr (Or.inl h4))))
  · exact iff_of_true ⟨_, rfl⟩ (Or.inr (Or.inr (Or.inr (Or.inr (List.isEmpty_iff.mp h5)))))
  · refine iff_of_false ?_ ?_
    · rintro ⟨m, hm⟩
      exact hm
    · rintro (h | h | h | h | h)
      exacts [h1 h, h2 h, h3 h, h4 h, h5 (by simp [h])]

/-- C8: workspace teardown is a no-op under keep-temp or dry-run; otherwise,
with the scratch tree present, it prompts and removes the tree exactly when
the stripped, lowercased response is the affirmative y. -/
theorem claim_c8_teardown :
    ∀ (cfg : ProcessingConfig) (tempExists : Bool) (response : String),
    ((cfg.keep_temp = true ∨ cfg.dry_run = true) →
        cleanup cfg tempExists response = ⟨false, false⟩)
      ∧ (cfg.keep_temp = false → cfg.dry_run = false → tempExists = true →
          (cleanup cfg tempExists response).prompted = true
            ∧ ((cleanup cfg tempExists response).removed = true ↔
                pyLower (pyStrip response) = "y")) := by
  intro cfg tempExists response
  constructor
  · rintro (h | h) <;> simp [cleanup, h]
  · intro h1 h2 h3
    simp only [cleanup, h1, h2, h3, if_false, if_true, Bool.false_eq_true]
    by_cases hy : pyLower (pyStrip response) = "y"
    · simp [hy]
    · simp [hy]

/-- Witness for C8: keep-temp makes teardown a no-op, and a padded uppercase
affirmative response removes the scratch tree. -/
theorem claim_c8_teardown_witness :
    cleanup
        ⟨⟨["in"]⟩, ⟨["out"]⟩, ["mkv"], 1, ⟨["irc_1003.sofa"]⟩, "repeat+24",
          true, false, false⟩ true "y" = ⟨false, false⟩
      ∧ (cleanup
          ⟨⟨["in"]⟩, ⟨["out"]⟩, ["mkv"], 1, ⟨["irc_1003.sofa"]⟩, "repeat+24",
            false, false, false⟩ true " Y ").removed = true :=
  ⟨(claim_c8_teardown _ _ _).1 (Or.inl rfl),
    ((claim_c8_teardown _ _ _).2 rfl rfl rfl).2.mpr (by decide)⟩

/-- C9: the boolean returned by process_file is true exactly on the success
branch; a skipped job returns false, the same value as a failed job. -/
theorem claim_c9_retval :
    ∀ (cfg : ProcessingConfig) (env : JobEnv) (files0 : List FPath)
      (stats : Stats) (f : FPath),
    ((processFile cfg env files0 stats f).ret = true ↔
        (processFile cfg env files0 stats f).outcome = Outcome.success)
      ∧ ((processFile cfg env files0 stats f).outcome = Outcome.skipped →
          (processFile cfg env files0 stats f).ret = false)
      ∧ ((processFile cfg env files0 stats f).outcome = Outcome.failed →
          (processFile cfg env files0 stats f).ret = false) := by
  intro cfg env files0 stats f
  simp only [processFile]
  split_ifs <;> simp

/-- Witness for C9 at a concrete skipped job: the returned boolean is false. -/
theorem claim_c9_retval_witness :
    (processFile
        ⟨⟨["in"]⟩, ⟨["out"]⟩, ["mkv"], 1, ⟨["irc_1003.sofa"]⟩, "repeat+24",
          false, false, false⟩
        ⟨false, []⟩ [⟨["out", "clip(sofa).mkv"]⟩] ⟨0, 0, 0⟩
        ⟨["in", "clip.mkv"]⟩).ret = false :=
  (claim_c9_retval _ _ _ _ _).2.1 (by decide)

/-- C10: on a successful real job whose base name is free of the pathlib
glob metacharacters (star, question mark, opening bracket — exactly the
domain where the glob pattern base-star means literal-prefix matching), the
per-job cleanup removes exactly the files in the scratch directory whose
names start with the job's base name (so a leftover of another job whose
base name extends this one is removed too), touches nothing outside the
scratch directory, and never removes the final output file. -/
theorem claim_c10_cleanup (cfg : ProcessingConfig) (env : JobEnv)
    (files0 : List FPath) (stats : Stats) (input_file : FPath)
    (hdry : cfg.dry_run = false)
    (hsucc : (processFile cfg env files0 stats input_file).outcome = Outcome.success)
    (hmeta : '*' ∉ (stemOf input_file.name).toList
      ∧ '?' ∉ (stemOf input_file.name).toList
      ∧ '[' ∉ (stemOf input_file.name).toList) :
    (∀ p : FPath, p.isChildOf (tempOf cfg) = true →
        (p ∈ (processFile cfg env files0 stats input_file).files ↔
          (p ∈ files0 ∧ ¬ (stemOf input_file.name).toList <+: p.name.toList)))
      ∧ (∀ p : FPath, p.isChildOf (tempOf cfg) = false →
          (p ∈ (processFile cfg env files0 stats input_file).files ↔
            (p ∈ files0 ∨ p = outputPathOf cfg input_file)))
      ∧ outputPathOf cfg input_file ∈ (processFile cfg env files0 stats input_file).files := by
  obtain ⟨h1, h2, h3, h4, h5⟩ := processFile_success_inv cfg env files0 stats input_file hsucc
  obtain ⟨-, hf⟩ := runPipeline_ok cfg
    ⟨files0, env.cmdResults, [Event.jobStart input_file, Event.spawnQuery input_file]⟩
    (stemOf input_file.name) (extOf input_file.name) (outputPathOf cfg input_file) hdry h3
  have hmem : ∀ p : FPath,
      p ∈ (processFile cfg env files0 stats input_file).files ↔
        ((p ∈ files0
            ∨ p ∈ stageFiles cfg (stemOf input_file.name) (extOf input_file.name)
                (outputPathOf cfg input_file))
          ∧ ¬(p.isChildOf (tempOf cfg) = true
                ∧ globMatch (stemOf input_file.name ++ "*").toList p.name.toList = true
                ∧ p ≠ outputPathOf cfg input_file)) := by
    intro p
    rw [h5]
    exact hf p
  have hglob : ∀ cs : List Char,
      (globMatch (stemOf input_file.name ++ "*").toList cs = true ↔
        (stemOf input_file.name).toList <+: cs) := by
    intro cs
    have ht : (stemOf input_file.name ++ "*").toList
        = (stemOf input_file.name).toList ++ ['*'] := String.data_append _ "*"
    rw [ht]
    exact globMatch_lit_star _ cs hmeta.1 hmeta.2.1
  have hpre : ∀ suf : String,
      (stemOf input_file.name).toList <+: (stemOf input_file.name ++ suf).toList := by
    intro suf
    have ht : (stemOf input_file.name ++ suf).toList
        = (stemOf input_file.name).toList ++ suf.toList := String.data_append _ suf
    rw [ht]
    exact List.prefix_append _ _
  have hB : ∀ p : FPath, p.isChildOf (tempOf cfg) = false →
      (p ∈ (processFile cfg env files0 stats input_file).files ↔
        (p ∈ files0 ∨ p = outputPathOf cfg input_file)) := by
    intro p hchild
    rw [hmem p]
    constructor
    · rintro ⟨hin, -⟩
      rcases hin with hin | hin
      · exact Or.inl hin
      · rcases (mem_stageFiles _ _ _ _ _).mp hin with h | h | ⟨-, h⟩ | h | h
        · exfalso
          rw [h] at hchild
          simp at hchild
        · exfalso
          rw [h] at hchild
          simp at hchild
        · exfalso
          rw [h] at hchild
          simp at hchild
        · exfalso
          rw [h] at hchild
          simp at hchild
        · exact Or.inr h
    · intro hin
      refine ⟨?_, ?_⟩
      · rcases hin with hin | hin
        · exact Or.inl hin
        · exact Or.inr ((mem_stageFiles _ _ _ _ _).mpr
            (Or.inr (Or.inr (Or.inr (Or.inr hin)))))
      · rintro ⟨hc, -, -⟩
        rw [hchild] at hc
        exact Bool.noConfusion hc
  have hA : ∀ p : FPath, p.isChildOf (tempOf cfg) = true →
      (p ∈ (processFile cfg env files0 stats input_file).files ↔
        (p ∈ files0 ∧ ¬ (stemOf input_file.name).toList <+: p.name.toList)) := by
    intro p hchild
    have hpout : p ≠ outputPathOf cfg input_file := by
      intro he
      have hno := outputPath_not_in_temp cfg input_file
      rw [← he, hchild] at hno
      exact Bool.noConfusion hno
    rw [hmem p]
    constructor
    · rintro ⟨hin, hk⟩
      have hnpre : ¬ (stemOf input_file.name).toList <+: p.name.toList := by
        intro hp
        exact hk ⟨hchild, (hglob p.name.toList).mpr hp, hpout⟩
      refine ⟨?_, hnpre⟩
      rcases hin with hin | hin
      · exact hin
      · exfalso
        rcases (mem_stageFiles _ _ _ _ _).mp hin with h | h | ⟨-, h⟩ | h | h
        · exact hnpre (by rw [h, FPath.name_child]; exact hpre ".mkv")
        · exact hnpre (by rw [h, FPath.name_child]; exact hpre "_sofa.flac")
        · exact hnpre (by rw [h, FPath.name_child]; exact hpre "_gain.flac")
        · refine hnpre ?_
          rw [h, FPath.name_child, String.append_assoc]
          exact hpre ("_almost_done." ++ extOf input_file.name)
        · exact hpout h
    · rintro ⟨hin, hnpre⟩
      refine ⟨Or.inl hin, ?_⟩
      rintro ⟨-, hg, -⟩
      exact hnpre ((hglob p.name.toList).mp hg)
  exact ⟨hA, hB, (hB _ (outputPath_not_in_temp cfg input_file)).mpr (Or.inr rfl)⟩

/-- Witness for C10: a successful concrete job deletes the other job's
leftover intermediate whose base name strictly extends this job's base name,
keeps a file outside the scratch directory, and keeps the final output. -/
theorem claim_c10_cleanup_witness :
    ((⟨["out", "temp", "clipX_sofa.flac"]⟩ : FPath)
        ∉ (processFile
            ⟨⟨["in"]⟩, ⟨["out"]⟩, ["mkv"], 1, ⟨["irc_1003.sofa"]⟩, "repeat+24",
              false, false, false⟩
            ⟨false, [CmdResult.exitWith 0 [], CmdResult.exitWith 0 [],
              CmdResult.exitWith 0 [], CmdResult.exitWith 0 [],
              CmdResult.exitWith 0 [], CmdResult.exitWith 0 []]⟩
            [⟨["out", "temp", "clipX_sofa.flac"]⟩, ⟨["other", "keep.txt"]⟩]
            ⟨0, 0, 0⟩ ⟨["in", "clip.mkv"]⟩).files)
      ∧ (⟨["other", "keep.txt"]⟩ : FPath)
          ∈ (processFile
              ⟨⟨["in"]⟩, ⟨["out"]⟩, ["mkv"], 1, ⟨["irc_1003.sofa"]⟩, "repeat+24",
                false, false, false⟩
              ⟨false, [CmdResult.exitWith 0 [], CmdResult.exitWith 0 [],
                CmdResult.exitWith 0 [], CmdResult.exitWith 0 [],
                CmdResult.exitWith 0 [], CmdResult.exitWith 0 []]⟩
              [⟨["out", "temp", "clipX_sofa.flac"]⟩, ⟨["other", "keep.txt"]⟩]
              ⟨0, 0, 0⟩ ⟨["in", "clip.mkv"]⟩).files
      ∧ (⟨["out", "clip(sofa).mkv"]⟩ : FPath)
          ∈ (processFile
              ⟨⟨["in"]⟩, ⟨["out"]⟩, ["mkv"], 1, ⟨["irc_1003.sofa"]⟩, "repeat+24",
                false, false, false⟩
              ⟨false, [CmdResult.exitWith 0 [], CmdResult.exitWith 0 [],
                CmdResult.exitWith 0 [], CmdResult.exitWith 0 [],
                CmdResult.exitWith 0 [], CmdResult.exitWith 0 []]⟩
              [⟨["out", "temp", "clipX_sofa.flac"]⟩, ⟨["other", "keep.txt"]⟩]
              ⟨0, 0, 0⟩ ⟨["in", "clip.mkv"]⟩).files := by
  have h := claim_c10_cleanup
    ⟨⟨["in"]⟩, ⟨["out"]⟩, ["mkv"], 1, ⟨["irc_1003.sofa"]⟩, "repeat+24",
      false, false, false⟩
    ⟨false, [CmdResult.exitWith 0 [], CmdResult.exitWith 0 [],
      CmdResult.exitWith 0 [], CmdResult.exitWith 0 [],
      CmdResult.exitWith 0 [], CmdResult.exitWith 0 []]⟩
    [⟨["out", "temp", "clipX_sofa.flac"]⟩, ⟨["other", "keep.txt"]⟩]
    ⟨0, 0, 0⟩ ⟨["in", "clip.mkv"]⟩ rfl (by decide) (by decide)
  refine ⟨?_, ?_, h.2.2⟩
  · intro hmem
    have hc := (h.1 ⟨["out", "temp", "clipX_sofa.flac"]⟩ (by decide)).mp hmem
    exact absurd hc.2 (by decide)
  · exact (h.2.1 ⟨["other", "keep.txt"]⟩ (by decide)).mpr (Or.inl (by decide))

/-- Concrete end-to-end dry-run scenario of C6: one input file matching the
configured extension, no pre-existing output, dry-run enabled. -/
def dryRunCfg : ProcessingConfig :=
  { input_folder := ⟨["in"]⟩, output_folder := ⟨["out"]⟩,
    extensions := ["mkv"], audio_track := 1, sofa_file := ⟨["irc_1003.sofa"]⟩,
    dry_run := true }

/-- Batch result of the C6 dry-run scenario. -/
def dryRunBatch : BatchOut :=
  processAll dryRunCfg (fun _ => ⟨false, []⟩) [⟨["in", "clip.mkv"]⟩] {}

/-- Total subprocess launches: engine invocations plus metadata queries. -/
def spawnTotal (evs : List Event) : Nat :=
  (spawnDescrs evs).length + querySpawnCount evs

/-- Counterexample to C6: in the dry-run scenario the claim fails — the
metadata query of get_stream_info still launches a subprocess (it is not
guarded by the dry-run flag), and the job runs to the success branch, so the
final stats are processed=1 rather than all zero. -/
theorem claim_c6_counterexample :
    ¬(spawnTotal dryRunBatch.events = 0
        ∧ dryRunCount dryRunBatch.events = 6
        ∧ dryRunBatch.stats = { processed := 0, failed := 0, skipped := 0 }) := by
  decide

/-- C6 as amended: in the dry-run scenario no engine subprocess is launched
and a dry-run log line is emitted for each of the six stages, but one
metadata-query subprocess is launched for the file and the final stats are
processed=1, failed=0, skipped=0. -/
theorem claim_c6_dryrun :
    (spawnDescrs dryRunBatch.events).length = 0
      ∧ querySpawnCount dryRunBatch.events = 1
      ∧ dryRunCount dryRunBatch.events = 6
      ∧ dryRunBatch.stats = { processed := 1, failed := 0, skipped := 0 } := by
  decide

end AutoSofalizer
